import Mathlib

/-!
Verification of the worldmonitor "Guarded Fetch" resilience core and two
pure service modules against the repository's specification.

The circuit-breaker-with-cache primitive (`createCircuitBreaker` in
`@/utils`) is invoked from the service modules but its implementation file
is not part of the source tree available here; the breaker, its cache tier,
the single-flight coalescer and the registry are therefore modelled from
the specification (sections 3, 4, 5 and 6 of spec.md).  The GPS
interference service (`src/services/gps-interference.ts`) and the scoring
helpers (`_scoring.mjs`) are embedded directly from their source.

Time is modelled as a natural number of milliseconds.  The wrapped
asynchronous operation is modelled by its settled outcome (`success v` or
`failure`): `execute` receives the outcome the operation would produce if
it were invoked, and reports through the `invoked` flag whether the
operation was actually called.
-/

namespace WorldMonitor

/-- Modelled from the spec: `BreakerState` is one of CLOSED, OPEN,
HALF_OPEN (spec §3). -/
inductive BreakerState : Type
  | CLOSED
  | OPEN
  | HALF_OPEN
deriving DecidableEq, Repr

/-- Modelled from the spec: `BreakerConfig`, supplied once per named
breaker, immutable for its lifetime (spec §3). -/
structure BreakerConfig : Type where
  name : String
  cacheTtlMs : Nat
  persistCache : Bool
  failureThreshold : Nat
  openDurationMs : Nat
deriving DecidableEq, Repr

/-- Modelled from the spec: `CacheEntry<T> = { value, storedAtMs }`
(spec §3). -/
structure CacheEntry (T : Type) : Type where
  value : T
  storedAtMs : Nat
deriving DecidableEq, Repr

/-- Modelled from the spec: a Breaker owns one immutable config,
zero-or-one cache entry, exactly one state, and a failure counter
(spec §3).  The in-flight slot lives in the `Session` model below. -/
structure Breaker (T : Type) : Type where
  config : BreakerConfig
  cache : Option (CacheEntry T)
  state : BreakerState
  failureCount : Nat
  openedAtMs : Nat
deriving DecidableEq, Repr

/-- The settled outcome of one invocation of the wrapped operation:
it resolves with a value or rejects/throws. -/
inductive OpOutcome (T : Type) : Type
  | success (v : T)
  | failure
deriving DecidableEq, Repr

/-- Modelled from the spec: a cached value is fresh while
`now - storedAtMs < cacheTtlMs` (spec glossary). -/
def isFresh {T : Type} (b : Breaker T) (now : Nat) : Bool :=
  match b.cache with
  | some e => decide (now - e.storedAtMs < b.config.cacheTtlMs)
  | none => false

/-- Modelled from the spec: the degraded-mode return value — the cached
value of any age when one exists, else the static fallback (spec §4.3,
§6). -/
def cachedOr {T : Type} (b : Breaker T) (fb : T) : T :=
  match b.cache with
  | some e => e.value
  | none => fb

/-- Modelled from the spec: whether the state machine permits an upstream
call right now — CLOSED and HALF_OPEN always do, OPEN only once
`openDurationMs` has elapsed since `openedAtMs` (spec §4.1). -/
def statePermitsCall {T : Type} (b : Breaker T) (now : Nat) : Bool :=
  match b.state with
  | .CLOSED => true
  | .HALF_OPEN => true
  | .OPEN => decide (b.config.openDurationMs ≤ now - b.openedAtMs)

/-- Modelled from the spec: applying a settled operation outcome to the
breaker (spec §4.1 success/failure columns).  On success the failure
counter resets to 0, the result is cached, and the state becomes CLOSED
(same row for CLOSED and HALF_OPEN).  On failure in CLOSED the counter
increments and the circuit opens when it reaches `failureThreshold`; on
failure in HALF_OPEN the circuit reopens with a fresh open-timer.  The
returned value on failure is the degraded-mode value `cachedOr`. -/
def settleOutcome {T : Type} (b : Breaker T) (now : Nat) (o : OpOutcome T)
    (fb : T) : T × Breaker T :=
  match o with
  | .success v =>
      (v, { b with cache := some ⟨v, now⟩, state := .CLOSED, failureCount := 0 })
  | .failure =>
      match b.state with
      | .CLOSED =>
          let n := b.failureCount + 1
          if b.config.failureThreshold ≤ n then
            (cachedOr b fb,
              { b with failureCount := n, state := .OPEN, openedAtMs := now })
          else
            (cachedOr b fb, { b with failureCount := n })
      | .HALF_OPEN =>
          (cachedOr b fb, { b with state := .OPEN, openedAtMs := now })
      | .OPEN =>
          (cachedOr b fb, b)

/-- The result of one `execute` call: the value returned to the caller,
the breaker afterwards, and whether the wrapped operation was invoked. -/
structure ExecResult (T : Type) : Type where
  value : T
  breaker : Breaker T
  invoked : Bool
deriving DecidableEq, Repr

/-- Modelled from the spec: `execute(operation, fallback)` (spec §4.1,
§6).  A fresh cache entry always satisfies the call without touching the
state machine or upstream; otherwise CLOSED and HALF_OPEN invoke the
operation, and OPEN either transitions to HALF_OPEN (after
`openDurationMs`) and probes, or returns the degraded-mode value without
any upstream call. -/
def execute {T : Type} (b : Breaker T) (now : Nat) (o : OpOutcome T)
    (fb : T) : ExecResult T :=
  if isFresh b now then
    ⟨cachedOr b fb, b, false⟩
  else
    match b.state with
    | .CLOSED =>
        let r := settleOutcome b now o fb
        ⟨r.1, r.2, true⟩
    | .HALF_OPEN =>
        let r := settleOutcome b now o fb
        ⟨r.1, r.2, true⟩
    | .OPEN =>
        if b.config.openDurationMs ≤ now - b.openedAtMs then
          let r := settleOutcome { b with state := .HALF_OPEN } now o fb
          ⟨r.1, r.2, true⟩
        else
          ⟨cachedOr b fb, b, false⟩

/-- Modelled from the spec: the persistent level of the cache tier — a
key-value store keyed by the breaker name (spec §4.3, §6). -/
def Store (T : Type) : Type := String → Option (CacheEntry T)

/-- Modelled from the spec: write one entry into the persistent store. -/
def writeStore {T : Type} (store : Store T) (k : String) (e : CacheEntry T) :
    Store T :=
  fun k2 => if k2 = k then some e else store k2

/-- Modelled from the spec: `createBreaker(config)` (spec §6, §4.3).  The
persistent entry is read once at construction — only when `persistCache`
is true — to pre-populate the in-memory cache; the breaker starts CLOSED
with a zero failure counter. -/
def createBreaker {T : Type} (cfg : BreakerConfig) (store : Store T) :
    Breaker T :=
  { config := cfg
    cache := if cfg.persistCache then store cfg.name else none
    state := .CLOSED
    failureCount := 0
    openedAtMs := 0 }

/-- Modelled from the spec: `execute` together with the persistent tier —
on every successful invoked operation the result is mirrored to the
persistent store when `persistCache` is true (spec §4.3). -/
def executePersist {T : Type} (b : Breaker T) (store : Store T) (now : Nat)
    (o : OpOutcome T) (fb : T) : ExecResult T × Store T :=
  let r := execute b now o fb
  match o with
  | .success v =>
      if r.invoked && b.config.persistCache then
        (r, writeStore store b.config.name ⟨v, now⟩)
      else
        (r, store)
  | .failure => (r, store)

/-- Modelled from the spec: the Registry, a process-wide mapping from
breaker name to breaker instance (spec §3, §4.4). -/
def Registry (T : Type) : Type := List (String × Breaker T)

/-- Look a breaker up by name in the registry. -/
def lookupBreaker {T : Type} (reg : Registry T) (name : String) :
    Option (Breaker T) :=
  match reg with
  | [] => none
  | (k, b) :: rest => if k = name then some b else lookupBreaker rest name

/-- Modelled from the spec: `getOrCreate(name, config)` — returns the
existing breaker if `name` is already registered, ignoring the passed
config (first registration wins); otherwise constructs and stores a new
one (spec §4.4). -/
def getOrCreate {T : Type} (reg : Registry T) (name : String)
    (cfg : BreakerConfig) (store : Store T) : Breaker T × Registry T :=
  match lookupBreaker reg name with
  | some b => (b, reg)
  | none =>
      let b := createBreaker { cfg with name := name } store
      (b, (name, b) :: reg)

/-- Modelled from the spec: the single-flight coalescer's per-breaker
session (spec §4.2, §9).  `inFlightWaiters` is the number of callers
attached to the current in-flight operation (0 means no call is in
flight, honouring the cardinality-0-or-1 invariant on in-flight calls);
`invocations` counts upstream invocations; `delivered` lists the values
already returned to callers. -/
structure Session (T : Type) : Type where
  breaker : Breaker T
  inFlightWaiters : Nat
  invocations : Nat
  delivered : List T
deriving DecidableEq, Repr

/-- Modelled from the spec: one caller arriving at `execute` (spec §4.1,
§4.2).  A fresh cache serves the caller at once; else if a call is in
flight the caller attaches to it; else if the state permits a call the
caller starts the single upstream invocation (an OPEN breaker whose
open-duration has elapsed moves to HALF_OPEN as it probes); otherwise the
caller is served the degraded-mode value at once. -/
def arrive {T : Type} (s : Session T) (now : Nat) (fb : T) : Session T :=
  if isFresh s.breaker now then
    { s with delivered := s.delivered ++ [cachedOr s.breaker fb] }
  else if s.inFlightWaiters ≠ 0 then
    { s with inFlightWaiters := s.inFlightWaiters + 1 }
  else if statePermitsCall s.breaker now then
    let b2 :=
      if s.breaker.state = .OPEN then { s.breaker with state := .HALF_OPEN }
      else s.breaker
    { s with breaker := b2, inFlightWaiters := 1,
             invocations := s.invocations + 1 }
  else
    { s with delivered := s.delivered ++ [cachedOr s.breaker fb] }

/-- Modelled from the spec: the in-flight operation settling (spec §4.2).
All attached callers receive the same settled outcome, mapped to a value
by the state machine; the breaker is updated once. -/
def settle {T : Type} (s : Session T) (now : Nat) (o : OpOutcome T)
    (fb : T) : Session T :=
  if s.inFlightWaiters = 0 then s
  else
    let r := settleOutcome s.breaker now o fb
    { breaker := r.2, inFlightWaiters := 0, invocations := s.invocations,
      delivered := s.delivered ++ List.replicate s.inFlightWaiters r.1 }

/-- `n` callers arriving back-to-back (all before the in-flight operation
settles), modelling `n` concurrent `execute` calls. -/
def arriveN {T : Type} (s : Session T) (now : Nat) (fb : T) : Nat → Session T
  | 0 => s
  | n + 1 => arrive (arriveN s now fb n) now fb

/-- A fresh session around a breaker: no call in flight, nothing
delivered, no upstream invocation yet. -/
def initSession {T : Type} (b : Breaker T) : Session T :=
  { breaker := b, inFlightWaiters := 0, invocations := 0, delivered := [] }

/-- `k` consecutive failing `execute` calls at time `now` (the operation
rejects every time). -/
def failN {T : Type} (b : Breaker T) (now : Nat) (fb : T) : Nat → Breaker T
  | 0 => b
  | k + 1 => (execute (failN b now fb k) now .failure fb).breaker

/-!
## GPS interference service — embedded from
`src/services/gps-interference.ts`.

`cellToLatLng` is an external library function over floating-point
coordinates; it is passed in as a parameter `conv` returning `none` when
it throws (the source skips such hexes).  Coordinates are modelled as
rationals; `Math.round(x * 1e5) / 1e5` is the exact half-up rounding
`roundTo5` below.
-/

/-- The `stats` object of the GPSJam payload. -/
structure GpsStats : Type where
  totalHexes : Nat
  highCount : Nat
  mediumCount : Nat
deriving DecidableEq, Repr

/-- One raw hex of the GPSJam payload as parsed from JSON. -/
structure RawHex : Type where
  h3 : String
  pct : ℚ
  good : Nat
  bad : Nat
  total : Nat
  level : String
deriving DecidableEq, Repr

/-- The raw GPSJam payload as parsed from JSON. -/
structure RawGps : Type where
  date : String
  fetchedAt : String
  source : String
  stats : GpsStats
  hexes : List RawHex
deriving DecidableEq, Repr

/-- `GpsJamHex` from `gps-interference.ts`: a hex with its H3 id converted
to lat/lon (rounded to 5 decimal places). -/
structure GpsJamHex : Type where
  h3 : String
  lat : ℚ
  lon : ℚ
  level : String
  pct : ℚ
  good : Nat
  bad : Nat
  total : Nat
deriving DecidableEq, Repr

/-- `GpsJamData` from `gps-interference.ts`. -/
structure GpsJamData : Type where
  date : String
  fetchedAt : String
  source : String
  stats : GpsStats
  hexes : List GpsJamHex
deriving DecidableEq, Repr

/-- The module-level mutable cache of `gps-interference.ts`:
`cachedData` and `cachedAt`. -/
structure GpsCacheState : Type where
  cachedData : Option GpsJamData
  cachedAt : Nat
deriving DecidableEq, Repr

/-- `CACHE_TTL = 60 * 60 * 1000` from `gps-interference.ts`. -/
def GPS_CACHE_TTL : Nat := 60 * 60 * 1000

/-- `Math.round(x * 1e5) / 1e5` on exact rationals (JS `Math.round` is
round-half-up, matching Mathlib's `round`). -/
def roundTo5 (x : ℚ) : ℚ := (round (x * 100000) : ℚ) / 100000

/-- The hex-conversion loop of `fetchGpsInterference`: convert each H3 id
via `cellToLatLng` (parameter `conv`), skipping hexes whose conversion
throws. -/
def convertHexes (conv : String → Option (ℚ × ℚ)) (raws : List RawHex) :
    List GpsJamHex :=
  raws.filterMap fun h =>
    match conv h.h3 with
    | some (lat, lon) =>
        some { h3 := h.h3, lat := roundTo5 lat, lon := roundTo5 lon,
               level := h.level, pct := h.pct, good := h.good,
               bad := h.bad, total := h.total }
    | none => none

/-- How the `fetch` of `fetchGpsInterference` settles: the fetch (or the
body parse) throws, the response is not ok, or a payload is obtained. -/
inductive GpsFetchOutcome : Type
  | throws
  | notOk
  | ok (raw : RawGps)
deriving DecidableEq, Repr

/-- `fetchGpsInterference` from `gps-interference.ts`: serve the in-module
cache while it is fresh; otherwise fetch — a thrown error or a non-ok
response returns the (possibly null) cached data unchanged, and a payload
is converted, cached with the current timestamp, and returned. -/
def fetchGpsInterference (st : GpsCacheState) (now : Nat)
    (conv : String → Option (ℚ × ℚ)) (outcome : GpsFetchOutcome) :
    Option GpsJamData × GpsCacheState :=
  if st.cachedData.isSome ∧ now - st.cachedAt < GPS_CACHE_TTL then
    (st.cachedData, st)
  else
    match outcome with
    | .throws => (st.cachedData, st)
    | .notOk => (st.cachedData, st)
    | .ok raw =>
        let d : GpsJamData :=
          { date := raw.date, fetchedAt := raw.fetchedAt,
            source := raw.source, stats := raw.stats,
            hexes := convertHexes conv raw.hexes }
        (some d, { cachedData := some d, cachedAt := now })

/-!
## Scoring helpers — embedded from `_scoring.mjs`.
-/

/-- `computeDisruptionScore(warningCount, congestionSeverity)` from
`_scoring.mjs`: `Math.min(100, warningCount * 15 + congestionSeverity * 30)`. -/
def computeDisruptionScore (warningCount congestionSeverity : ℚ) : ℚ :=
  min 100 (warningCount * 15 + congestionSeverity * 30)

/-!
## Helper lemmas
-/

/-- Freshness depends only on the cache entry and the config. -/
lemma isFresh_congr {T : Type} {b1 b2 : Breaker T} (hc : b1.cache = b2.cache)
    (hcfg : b1.config = b2.config) (now : Nat) :
    isFresh b1 now = isFresh b2 now := by
  simp only [isFresh, hc, hcfg]

/-- The degraded-mode value depends only on the cache entry. -/
lemma cachedOr_congr {T : Type} {b1 b2 : Breaker T} (hc : b1.cache = b2.cache)
    (fb : T) : cachedOr b1 fb = cachedOr b2 fb := by
  simp only [cachedOr, hc]

/-- A fresh cache always short-circuits `execute`: the cached value is
returned, the breaker is untouched, the operation is not invoked. -/
lemma execute_of_fresh {T : Type} (b : Breaker T) (now : Nat)
    (o : OpOutcome T) (fb : T) (h : isFresh b now = true) :
    execute b now o fb = ⟨cachedOr b fb, b, false⟩ := by
  simp [execute, h]

/-- Sample configuration used by concrete witnesses. -/
def sampleConfig : BreakerConfig :=
  { name := "X", cacheTtlMs := 1000, persistCache := false,
    failureThreshold := 3, openDurationMs := 30000 }

/-- Sample freshly-created breaker used by concrete witnesses. -/
def sampleBreaker : Breaker Nat :=
  { config := sampleConfig, cache := none, state := .CLOSED,
    failureCount := 0, openedAtMs := 0 }

/-- Sample OPEN breaker used by concrete witnesses. -/
def sampleOpenBreaker : Breaker Nat :=
  { config := sampleConfig, cache := none, state := .OPEN,
    failureCount := 3, openedAtMs := 0 }

/-- Sample breaker holding a (stale-able) cache entry, used by concrete
witnesses. -/
def sampleCachedBreaker : Breaker Nat :=
  { config := sampleConfig, cache := some ⟨42, 0⟩, state := .CLOSED,
    failureCount := 0, openedAtMs := 0 }

/-- Sample configuration with the persistent cache tier enabled. -/
def persistConfig : BreakerConfig :=
  { name := "P", cacheTtlMs := 1000, persistCache := true,
    failureThreshold := 3, openDurationMs := 30000 }

/-- If `execute` actually invoked the operation and the operation
succeeded, the resulting breaker is CLOSED with a zero failure counter
and the result cached at the call time, and the caller received the
operation's value. -/
lemma execute_invoked_success {T : Type} (b : Breaker T) (t : Nat)
    (v fb : T) (h : (execute b t (.success v) fb).invoked = true) :
    (execute b t (.success v) fb).breaker
      = { b with cache := some ⟨v, t⟩, state := .CLOSED, failureCount := 0 } ∧
    (execute b t (.success v) fb).value = v := by
  obtain ⟨cfg, ca, st, fc, oa⟩ := b
  by_cases hf : isFresh ⟨cfg, ca, st, fc, oa⟩ t
  · simp [execute, hf] at h
  · cases st
    · simp [execute, hf, settleOutcome]
    · by_cases he : cfg.openDurationMs ≤ t - oa
      · simp [execute, hf, he, settleOutcome]
      · simp [execute, hf, he] at h
    · simp [execute, hf, settleOutcome]

/-- On operation failure the caller receives the degraded-mode value:
the cache entry's value of any age, else the fallback. -/
lemma execute_failure_value {T : Type} (b : Breaker T) (now : Nat)
    (fb : T) : (execute b now .failure fb).value = cachedOr b fb := by
  obtain ⟨cfg, ca, st, fc, oa⟩ := b
  by_cases hf : isFresh ⟨cfg, ca, st, fc, oa⟩ now
  · simp [execute, hf]
  · cases st <;>
      simp only [execute, hf, Bool.false_eq_true, if_false, settleOutcome] <;>
      split <;>
      simp [cachedOr]

/-- `execute` never deletes the cache entry: afterwards the cache is
either unchanged or replaced by a fresh entry stored now. -/
lemma execute_cache_eq {T : Type} (b : Breaker T) (now : Nat)
    (o : OpOutcome T) (fb : T) :
    (execute b now o fb).breaker.cache = b.cache ∨
    ∃ v, (execute b now o fb).breaker.cache = some ⟨v, now⟩ := by
  obtain ⟨cfg, ca, st, fc, oa⟩ := b
  by_cases hf : isFresh ⟨cfg, ca, st, fc, oa⟩ now
  · left; simp [execute, hf]
  · cases st
    · cases o with
      | success v => right; exact ⟨v, by simp [execute, hf, settleOutcome]⟩
      | failure =>
          left
          simp only [execute, hf, Bool.false_eq_true, if_false, settleOutcome]
          split <;> rfl
    · cases o with
      | success v =>
          by_cases he : cfg.openDurationMs ≤ now - oa
          · right; exact ⟨v, by simp [execute, hf, he, settleOutcome]⟩
          · left; simp [execute, hf, he]
      | failure =>
          by_cases he : cfg.openDurationMs ≤ now - oa
          · left; simp [execute, hf, he, settleOutcome]
          · left; simp [execute, hf, he]
    · cases o with
      | success v => right; exact ⟨v, by simp [execute, hf, settleOutcome]⟩
      | failure => left; simp [execute, hf, settleOutcome]

/-- Invariant of consecutive failing calls below the threshold: the
breaker stays CLOSED, the failure counter counts the failures, and the
cache, config and open-timer are untouched. -/
lemma failN_closed {T : Type} (b : Breaker T) (now : Nat) (fb : T)
    (hs : b.state = .CLOSED) (hc : b.failureCount = 0)
    (hf : isFresh b now = false) :
    ∀ k, k < b.config.failureThreshold →
      (failN b now fb k).state = .CLOSED ∧
      (failN b now fb k).failureCount = k ∧
      (failN b now fb k).cache = b.cache ∧
      (failN b now fb k).config = b.config ∧
      (failN b now fb k).openedAtMs = b.openedAtMs := by
  intro k
  induction k with
  | zero => exact fun _ => ⟨hs, hc, rfl, rfl, rfl⟩
  | succ k ih =>
      intro hk
      obtain ⟨h1, h2, h3, h4, h5⟩ := ih (Nat.lt_of_succ_lt hk)
      have hfrk : isFresh (failN b now fb k) now = false := by
        rw [isFresh_congr h3 h4]; exact hf
      have hnotle : ¬ (failN b now fb k).config.failureThreshold
          ≤ (failN b now fb k).failureCount + 1 := by
        rw [h4, h2]; omega
      have hstep : execute (failN b now fb k) now .failure fb
          = ⟨cachedOr (failN b now fb k) fb,
              { failN b now fb k with
                  failureCount := (failN b now fb k).failureCount + 1 },
              true⟩ := by
        simp [execute, hfrk, h1, settleOutcome, hnotle]
      have hN : failN b now fb (k + 1)
          = { failN b now fb k with
              failureCount := (failN b now fb k).failureCount + 1 } := by
        simp only [failN]; rw [hstep]
      rw [hN]
      exact ⟨h1, by simp [h2], h3, h4, h5⟩

/-- `n` concurrent callers on a breaker with no fresh cache and a state
permitting a call: the first caller starts the single in-flight
operation (an elapsed OPEN breaker moving to HALF_OPEN), the rest
attach; exactly one invocation happens and nothing is delivered until
the operation settles. -/
lemma arriveN_single_flight {T : Type} (b : Breaker T) (now : Nat)
    (fb : T) (hf : isFresh b now = false)
    (hp : statePermitsCall b now = true) :
    ∀ k, 1 ≤ k →
      arriveN (initSession b) now fb k
        = { breaker :=
              if b.state = .OPEN then { b with state := .HALF_OPEN } else b,
            inFlightWaiters := k, invocations := 1, delivered := [] } := by
  intro k
  induction k with
  | zero => omega
  | succ k ih =>
      intro _
      by_cases hk : k = 0
      · subst hk
        simp [arriveN, arrive, initSession, hf, hp]
      · have hk1 : 1 ≤ k := Nat.one_le_iff_ne_zero.mpr hk
        rw [arriveN, ih hk1]
        have hcache :
            (if b.state = .OPEN then { b with state := .HALF_OPEN } else b).cache
              = b.cache := by split <;> rfl
        have hcfg :
            (if b.state = .OPEN then { b with state := .HALF_OPEN } else b).config
              = b.config := by split <;> rfl
        have hf2 : isFresh
            (if b.state = .OPEN then { b with state := .HALF_OPEN } else b) now
              = false := by
          rw [isFresh_congr hcache hcfg]; exact hf
        simp [arrive, hf2, hk]

/-!
## Claim theorems
-/

/-- C1: `execute` is a total function (so it never rejects or throws),
and on a failure of the operation the value returned is the best
available one — the cache entry's value whether fresh or stale, and the
supplied fallback only when no cache entry exists (`cachedOr`). -/
theorem C1_execute_total_failure_returns_best_available {T : Type}
    (b : Breaker T) (now : Nat) (fb : T) :
    (execute b now .failure fb).value = cachedOr b fb := by
  obtain ⟨cfg, ca, st, fc, oa⟩ := b
  by_cases hf : isFresh ⟨cfg, ca, st, fc, oa⟩ now
  · simp [execute, hf]
  · cases st <;>
      simp only [execute, hf, Bool.false_eq_true, if_false, settleOutcome] <;>
      split <;>
      simp [cachedOr]

/-- C2: N ≥ 1 concurrent `execute` calls on one breaker with no fresh
cached value and a state permitting a call cause exactly one invocation
of the operation, and all N callers receive the same value (the single
settled outcome mapped by the state machine). -/
theorem C2_single_flight_coalescing {T : Type} (b : Breaker T)
    (now : Nat) (fb : T) (n : Nat) (o : OpOutcome T)
    (hn : 1 ≤ n) (hf : isFresh b now = false)
    (hp : statePermitsCall b now = true) :
    (settle (arriveN (initSession b) now fb n) now o fb).invocations = 1 ∧
    ∃ v, (settle (arriveN (initSession b) now fb n) now o fb).delivered
      = List.replicate n v := by
  rw [arriveN_single_flight b now fb hf hp n hn]
  have hn0 : n ≠ 0 := by omega
  refine ⟨by simp [settle, hn0], ?_⟩
  exact ⟨(settleOutcome
      (if b.state = .OPEN then { b with state := .HALF_OPEN } else b)
      now o fb).1, by simp [settle, hn0]⟩

/-- C2 witness: three concurrent callers on a cache-less CLOSED breaker
share one invocation and all three receive the same value. -/
theorem C2_single_flight_coalescing_witness :
    (1 ≤ 3) ∧ isFresh sampleBreaker 0 = false ∧
    statePermitsCall sampleBreaker 0 = true ∧
    ((settle (arriveN (initSession sampleBreaker) 0 0 3) 0
        (.success 7) 0).invocations = 1 ∧
     ∃ v, (settle (arriveN (initSession sampleBreaker) 0 0 3) 0
        (.success 7) 0).delivered = List.replicate 3 v) :=
  ⟨by decide, by decide, by decide,
    C2_single_flight_coalescing sampleBreaker 0 0 3 (.success 7)
      (by decide) (by decide) (by decide)⟩

/-- C4: starting CLOSED with a zero failure counter (and no fresh
cache), `failureThreshold` consecutive operation failures leave the
breaker OPEN with its open-timer at the time of the last failure; while
OPEN and before `openDurationMs` has elapsed, every `execute` call
returns the cached value when one exists, else the fallback, never
invokes the operation, and leaves the breaker unchanged. -/
theorem C4_threshold_failures_open_circuit {T : Type} (b : Breaker T)
    (now m : Nat) (fb : T)
    (hs : b.state = .CLOSED) (hc : b.failureCount = 0)
    (hf : isFresh b now = false)
    (hm : b.config.failureThreshold = m) (hm1 : 0 < m) :
    (failN b now fb m).state = .OPEN ∧
    (failN b now fb m).openedAtMs = now ∧
    (failN b now fb m).cache = b.cache ∧
    ∀ now2 (o2 : OpOutcome T) (fb2 : T),
      now2 - now < b.config.openDurationMs →
        execute (failN b now fb m) now2 o2 fb2
          = ⟨cachedOr b fb2, failN b now fb m, false⟩ := by
  obtain ⟨k, rfl⟩ : ∃ k, m = k + 1 :=
    ⟨m - 1, (Nat.succ_pred_eq_of_pos hm1).symm⟩
  obtain ⟨h1, h2, h3, h4, h5⟩ :=
    failN_closed b now fb hs hc hf k (by omega)
  have hfrk : isFresh (failN b now fb k) now = false := by
    rw [isFresh_congr h3 h4]; exact hf
  have hle : (failN b now fb k).config.failureThreshold
      ≤ (failN b now fb k).failureCount + 1 := by
    rw [h4, h2, hm]
  have hstep : execute (failN b now fb k) now .failure fb
      = ⟨cachedOr (failN b now fb k) fb,
          { failN b now fb k with
              failureCount := (failN b now fb k).failureCount + 1
              state := .OPEN
              openedAtMs := now },
          true⟩ := by
    simp [execute, hfrk, h1, settleOutcome, hle]
  have hN : failN b now fb (k + 1)
      = { failN b now fb k with
          failureCount := (failN b now fb k).failureCount + 1
          state := .OPEN
          openedAtMs := now } := by
    simp only [failN]; rw [hstep]
  have hstate : (failN b now fb (k + 1)).state = .OPEN := by rw [hN]
  have hopen : (failN b now fb (k + 1)).openedAtMs = now := by rw [hN]
  have hcache : (failN b now fb (k + 1)).cache = b.cache := by
    rw [hN]; exact h3
  have hcfg : (failN b now fb (k + 1)).config = b.config := by
    rw [hN]; exact h4
  refine ⟨hstate, hopen, hcache, ?_⟩
  intro now2 o2 fb2 hlt
  have hval : cachedOr (failN b now fb (k + 1)) fb2 = cachedOr b fb2 :=
    cachedOr_congr hcache fb2
  by_cases hfr2 : isFresh (failN b now fb (k + 1)) now2
  · rw [execute_of_fresh _ _ _ _ hfr2, hval]
  · have hnotle : ¬ (failN b now fb (k + 1)).config.openDurationMs
        ≤ now2 - (failN b now fb (k + 1)).openedAtMs := by
      rw [hcfg, hopen]; omega
    simp only [execute, eq_self_iff_true, Bool.not_eq_true] at hfr2 ⊢
    rw [hfr2]
    simp only [Bool.false_eq_true, if_false]
    rw [hstate]
    simp [hnotle, hval]

/-- C4 witness: three consecutive failures at t = 10 on a fresh breaker
with threshold 3 open the circuit at 10; a call at t = 100 (within the
30000 ms open window) returns the fallback 5 without invoking. -/
theorem C4_threshold_failures_open_circuit_witness :
    sampleBreaker.state = .CLOSED ∧ sampleBreaker.failureCount = 0 ∧
    isFresh sampleBreaker 10 = false ∧
    sampleBreaker.config.failureThreshold = 3 ∧ 0 < 3 ∧
    (failN sampleBreaker 10 0 3).state = .OPEN ∧
    (failN sampleBreaker 10 0 3).openedAtMs = 10 ∧
    (100 - 10 < sampleBreaker.config.openDurationMs) ∧
    execute (failN sampleBreaker 10 0 3) 100 (.success 9) 5
      = ⟨cachedOr sampleBreaker 5, failN sampleBreaker 10 0 3, false⟩ := by
  have h := C4_threshold_failures_open_circuit sampleBreaker 10 3 0 rfl rfl
    (by decide) rfl (by decide)
  exact ⟨rfl, rfl, by decide, rfl, by decide, h.1, h.2.1, by decide,
    h.2.2.2 100 (.success 9) 5 (by decide)⟩

/-- C3: if the operation succeeds (is invoked and resolves with `v`) at
time `t`, then an `execute` call at `t + d` with `d < cacheTtlMs`
returns the cached value `v` without invoking the operation and without
changing the breaker — and this fresh-cache shortcut applies whatever
state the breaker is put in. -/
theorem C3_fresh_cache_shortcircuits_every_state {T : Type}
    (b : Breaker T) (t d : Nat) (v fb : T)
    (hinv : (execute b t (.success v) fb).invoked = true)
    (hd : d < b.config.cacheTtlMs) :
    ∀ (st2 : BreakerState) (o2 : OpOutcome T) (fb2 : T),
      execute { (execute b t (.success v) fb).breaker with state := st2 }
          (t + d) o2 fb2
        = ⟨v, { (execute b t (.success v) fb).breaker with state := st2 },
            false⟩ := by
  intro st2 o2 fb2
  obtain ⟨hb, -⟩ := execute_invoked_success b t v fb hinv
  rw [hb]
  have hfr : isFresh
      { { b with cache := some ⟨v, t⟩, state := .CLOSED, failureCount := 0 }
        with state := st2 } (t + d) = true := by
    simp [isFresh, Nat.add_sub_cancel_left, hd]
  rw [execute_of_fresh _ _ _ _ hfr]
  simp [cachedOr]

/-- C3 witness: a successful call at t = 0 on a cache-less CLOSED breaker
(with TTL 1000) is cached; a call 5 ms later, in state OPEN, returns the
cached 7 without invoking. -/
theorem C3_fresh_cache_shortcircuits_every_state_witness :
    (execute sampleBreaker 0 (.success 7) 0).invoked = true ∧
    (5 < sampleBreaker.config.cacheTtlMs) ∧
    execute { (execute sampleBreaker 0 (.success 7) 0).breaker
        with state := .OPEN } 5 .failure 1
      = ⟨7, { (execute sampleBreaker 0 (.success 7) 0).breaker
          with state := .OPEN }, false⟩ :=
  ⟨by decide, by decide,
    C3_fresh_cache_shortcircuits_every_state sampleBreaker 0 5 7 0
      (by decide) (by decide) .OPEN .failure 1⟩

/-- C5: once `openDurationMs` has elapsed since `openedAtMs` on an OPEN
breaker (with no fresh cache), the next `execute` call invokes exactly
one probe operation; a successful probe transitions the breaker to
CLOSED with its failure counter reset to 0 (and caches the value), and a
failing probe transitions back to OPEN with `openedAtMs` reset to the
current time. -/
theorem C5_open_elapsed_probe {T : Type} (b : Breaker T) (now : Nat)
    (v fb : T) (hs : b.state = .OPEN)
    (he : b.config.openDurationMs ≤ now - b.openedAtMs)
    (hf : isFresh b now = false) :
    execute b now (.success v) fb
      = ⟨v,
          { b with
              cache := some ⟨v, now⟩
              state := .CLOSED
              failureCount := 0 },
          true⟩ ∧
    execute b now .failure fb
      = ⟨cachedOr b fb, { b with state := .OPEN, openedAtMs := now },
          true⟩ := by
  obtain ⟨cfg, ca, st, fc, oa⟩ := b
  simp only at hs he hf
  subst hs
  constructor
  · simp [execute, hf, he, settleOutcome]
  · simp [execute, hf, he, settleOutcome, cachedOr]

/-- C5 witness: an OPEN breaker opened at 0 with `openDurationMs`
30000, probed at t = 30000: a successful probe closes the circuit and
resets the failure counter, a failing probe reopens it at 30000. -/
theorem C5_open_elapsed_probe_witness :
    sampleOpenBreaker.state = .OPEN ∧
    sampleOpenBreaker.config.openDurationMs
      ≤ 30000 - sampleOpenBreaker.openedAtMs ∧
    isFresh sampleOpenBreaker 30000 = false ∧
    (execute sampleOpenBreaker 30000 (.success 7) 0
      = ⟨7,
          { sampleOpenBreaker with
              cache := some ⟨7, 30000⟩
              state := .CLOSED
              failureCount := 0 },
          true⟩ ∧
     execute sampleOpenBreaker 30000 .failure 0
      = ⟨cachedOr sampleOpenBreaker 0,
          { sampleOpenBreaker with state := .OPEN, openedAtMs := 30000 },
          true⟩) :=
  ⟨rfl, by decide, by decide,
    C5_open_elapsed_probe sampleOpenBreaker 30000 7 0 rfl (by decide)
      (by decide)⟩

/-- C6: a cache entry is never deleted by `execute` (in particular not
when it is past its TTL); on a failure path a cached value of any age is
returned in preference to the fallback, and the fallback is returned
only when no cache entry exists. -/
theorem C6_stale_cache_preferred_over_fallback {T : Type}
    (b : Breaker T) (now : Nat) (o : OpOutcome T) (fb : T) :
    ((execute b now o fb).breaker.cache = none → b.cache = none) ∧
    (∀ e, b.cache = some e → (execute b now .failure fb).value = e.value) ∧
    (b.cache = none → (execute b now .failure fb).value = fb) := by
  refine ⟨?_, ?_, ?_⟩
  · intro h
    rcases execute_cache_eq b now o fb with hc | ⟨w, hc⟩
    · rw [hc] at h; exact h
    · rw [hc] at h; exact absurd h (by simp)
  · intro e he
    rw [execute_failure_value, cachedOr, he]
  · intro he
    rw [execute_failure_value, cachedOr, he]

/-- C6 witness: a failing call on a cache-less breaker leaves the cache
empty and falls back to the supplied value 5; a failing call on a
breaker holding a long-stale entry (stored at 0, queried at 99999 with
TTL 1000) returns the stale 42, not the fallback. -/
theorem C6_stale_cache_preferred_over_fallback_witness :
    ((execute sampleBreaker 0 .failure 0).breaker.cache = none ∧
      sampleBreaker.cache = none) ∧
    (sampleCachedBreaker.cache = some ⟨42, 0⟩ ∧
      (execute sampleCachedBreaker 99999 .failure 5).value = 42) ∧
    (execute sampleBreaker 0 .failure 5).value = 5 :=
  ⟨⟨by decide,
     (C6_stale_cache_preferred_over_fallback sampleBreaker 0 .failure 0).1
       (by decide)⟩,
   ⟨rfl,
     (C6_stale_cache_preferred_over_fallback sampleCachedBreaker 99999
       .failure 5).2.1 ⟨42, 0⟩ rfl⟩,
   (C6_stale_cache_preferred_over_fallback sampleBreaker 0 .failure 5).2.2
     rfl⟩

/-- C7: a breaker constructed with `persistCache: true` whose first
successful operation stored value `v` at time `t` writes `⟨v, t⟩` to the
persistent store, and a breaker constructed later (a fresh process
instance) from that store pre-populates its in-memory cache with
`⟨v, t⟩` at construction, before any call is made on it. -/
theorem C7_persistCache_round_trip {T : Type} (cfg : BreakerConfig)
    (s0 : Store T) (t : Nat) (v fb : T)
    (hp : cfg.persistCache = true)
    (hinv : (execute (createBreaker cfg s0) t (.success v) fb).invoked
      = true) :
    (createBreaker cfg
        (executePersist (createBreaker cfg s0) s0 t (.success v) fb).2).cache
      = some ⟨v, t⟩ := by
  have hcfg : (createBreaker cfg s0).config = cfg := rfl
  have h2 : (executePersist (createBreaker cfg s0) s0 t (.success v) fb).2
      = writeStore s0 cfg.name ⟨v, t⟩ := by
    simp [executePersist, hinv, hp, hcfg]
  rw [h2]
  simp [createBreaker, hp, writeStore]

/-- C7 witness: with an initially empty store, a successful call storing
5 at t = 0 round-trips — a breaker created from the written store starts
with cache entry ⟨5, 0⟩. -/
theorem C7_persistCache_round_trip_witness :
    persistConfig.persistCache = true ∧
    (execute (createBreaker persistConfig (fun _ => none)) 0
        (.success 5) 0).invoked = true ∧
    (createBreaker persistConfig
        (executePersist (createBreaker persistConfig (fun _ => none))
          (fun _ => none) 0 (.success 5) 0).2).cache
      = some ⟨5, 0⟩ :=
  ⟨rfl, by decide,
    C7_persistCache_round_trip persistConfig (fun _ => none) 0 5 0 rfl
      (by decide)⟩

/-- C8: `getOrCreate` returns the breaker already registered under the
name when one exists (leaving the registry unchanged and raising no
error), and after any first registration a second `getOrCreate` with a
different config returns that same breaker and the same registry —
first registration wins, so call sites sharing a name share one
breaker. -/
theorem C8_getOrCreate_first_registration_wins {T : Type}
    (reg : Registry T) (name : String) (c1 c2 : BreakerConfig)
    (s1 s2 : Store T) :
    (∀ b, lookupBreaker reg name = some b →
        getOrCreate reg name c1 s1 = (b, reg)) ∧
    getOrCreate (getOrCreate reg name c1 s1).2 name c2 s2
      = ((getOrCreate reg name c1 s1).1, (getOrCreate reg name c1 s1).2) := by
  constructor
  · intro b hb
    simp [getOrCreate, hb]
  · cases h : lookupBreaker reg name with
    | some b => simp [getOrCreate, h]
    | none => simp [getOrCreate, h, lookupBreaker]

/-- C8 witness: a registry already holding "X" returns the registered
breaker for any config, and re-registration under "X" is a no-op. -/
theorem C8_getOrCreate_first_registration_wins_witness :
    getOrCreate [("X", sampleBreaker)] "X" sampleConfig
        (fun _ => (none : Option (CacheEntry Nat)))
      = (sampleBreaker, [("X", sampleBreaker)]) ∧
    getOrCreate
        (getOrCreate [("X", sampleBreaker)] "X" sampleConfig
          (fun _ => (none : Option (CacheEntry Nat)))).2
        "X" { name := "X", cacheTtlMs := 5, persistCache := true,
              failureThreshold := 1, openDurationMs := 7 }
        (fun _ => (none : Option (CacheEntry Nat)))
      = ((getOrCreate [("X", sampleBreaker)] "X" sampleConfig
            (fun _ => (none : Option (CacheEntry Nat)))).1,
         (getOrCreate [("X", sampleBreaker)] "X" sampleConfig
            (fun _ => (none : Option (CacheEntry Nat)))).2) := by
  refine ⟨?_, ?_⟩
  · exact (C8_getOrCreate_first_registration_wins [("X", sampleBreaker)] "X"
      sampleConfig sampleConfig (fun _ => none) (fun _ => none)).1
      sampleBreaker rfl
  · exact (C8_getOrCreate_first_registration_wins [("X", sampleBreaker)] "X"
      sampleConfig
      { name := "X", cacheTtlMs := 5, persistCache := true,
        failureThreshold := 1, openDurationMs := 7 }
      (fun _ => none) (fun _ => none)).2

/-- C9: whenever the upstream fetch of `fetchGpsInterference` throws or
returns a non-ok response, the call returns the previously cached value
unchanged (null when nothing was cached) and leaves the module cache
state (`cachedData`, `cachedAt`) unmodified; being a total function it
never throws. -/
theorem C9_fetchGpsInterference_error_path_returns_cache
    (st : GpsCacheState) (now : Nat) (conv : String → Option (ℚ × ℚ)) :
    fetchGpsInterference st now conv .throws = (st.cachedData, st) ∧
    fetchGpsInterference st now conv .notOk = (st.cachedData, st) := by
  constructor <;>
    · unfold fetchGpsInterference
      split <;> rfl

/-- C10: `computeDisruptionScore` is `Math.min(100, warningCount * 15 +
congestionSeverity * 30)` and therefore never exceeds 100 (for all
inputs, in particular all non-negative ones). -/
theorem C10_computeDisruptionScore_capped (w c : ℚ) :
    computeDisruptionScore w c = min 100 (w * 15 + c * 30) ∧
    computeDisruptionScore w c ≤ 100 :=
  ⟨rfl, min_le_left _ _⟩

end WorldMonitor
